import Mathlib

/-!
Verification of the q6 signal-based byte-transfer programs:
`src/q6/signal_sender.cpp` and `src/q6/signal_receiver.cpp`.

The sender decomposes an 8-bit value into 8 signals (SIGUSR1 for a 0 bit,
SIGUSR2 for a 1 bit), most significant bit first.  The receiver's handler
shifts an accumulator left, ORs in the new bit, counts bits, and on the
8th bit prints the value and exits with status 0.  The sender's `main`
interactively validates a target PID and a value in [0,255] before the
send loop; a failing `kill` aborts with a diagnostic and exit status 1.
-/

set_option maxRecDepth 100000

namespace SignalQ6

/-- The two notification kinds used by the protocol. -/
inductive Sig where
  | SIGUSR1 : Sig
  | SIGUSR2 : Sig
deriving DecidableEq

/-- Signal chosen by `send_bit`: `SIGUSR1` for bit value 0, `SIGUSR2` otherwise
(`int sig = (bit == 0) ? SIGUSR1 : SIGUSR2;`). -/
def send_bit_sig (bit : Nat) : Sig :=
  if bit = 0 then Sig.SIGUSR1 else Sig.SIGUSR2

/-- Bits emitted by the sender's loop `for (int i = 7; i >= 0; --i)`,
each bit extracted as `(number >> i) & 1`; entry `k` of the list is the
bit sent at the `k`-th emission, i.e. bit `7 - k`. -/
def senderBits (number : Nat) : List Nat :=
  (List.range 8).map (fun k => (number >>> (7 - k)) &&& 1)

/-- The sequence of signals emitted by the sender for `number`, MSB first. -/
def senderSignals (number : Nat) : List Sig :=
  (senderBits number).map send_bit_sig

/-- The sender's send loop over a list of emission indices, with a fallible
`kill`: `ok k` tells whether the `k`-th `kill` call succeeds.  On failure
`send_bit` prints the `perror` diagnostic and calls `exit(1)`, so the loop
stops: the result is (signals actually delivered, diagnostics printed,
process exit status). -/
def sendIndexed (ok : Nat → Bool) (number : Nat) : List Nat → List Sig × List String × Nat
  | [] => ([], [], 0)
  | k :: rest =>
    if ok k then
      let r := sendIndexed ok number rest
      (send_bit_sig ((number >>> (7 - k)) &&& 1) :: r.1, r.2.1, r.2.2)
    else
      ([], ["Failed to send signal"], 1)

/-- The sender's transmission of `number`: 8 emissions, indices 0..7. -/
def senderRun (ok : Nat → Bool) (number : Nat) : List Sig × List String × Nat :=
  sendIndexed ok number (List.range 8)

/-- Receiver state: the globals `bit_count` and `result`
(`volatile sig_atomic_t`; both stay below 256 here, so `Nat` is exact). -/
structure RState where
  bit_count : Nat
  result : Nat
deriving DecidableEq

/-- Receiver state at process start: both globals are 0. -/
def initState : RState := ⟨0, 0⟩

/-- The receiver's handler `handle_sigusr`: shift `result` left, OR in 1 for
`SIGUSR2`, increment `bit_count`; when `bit_count` reaches 8, print
`Received <result>` and `exit(0)`.  The second component models the
terminal output/exit (printed line, exit status), `none` while waiting. -/
def handle_sigusr (s : RState) (sig : Sig) : RState × Option (String × Nat) :=
  let r1 := s.result <<< 1
  let r2 := if sig = Sig.SIGUSR2 then r1 ||| 1 else r1
  let bc := s.bit_count + 1
  (⟨bc, r2⟩, if bc = 8 then some ("Received " ++ toString r2, 0) else none)

/-- Deliver a list of signals to the receiver in order: each invokes the
handler; once the handler exits the process, later signals are not
processed. -/
def runReceiver : RState → List Sig → RState × Option (String × Nat)
  | s, [] => (s, none)
  | s, sig :: rest =>
    match handle_sigusr s sig with
    | (s1, none) => runReceiver s1 rest
    | (s1, some out) => (s1, some out)

/-- Numeric value of one symbol: `SIGUSR2` carries bit 1, `SIGUSR1` bit 0. -/
def sigBit (sig : Sig) : Nat := if sig = Sig.SIGUSR2 then 1 else 0

/-- Value accumulated by repeated shift-and-or starting from `a`. -/
def valFrom (a : Nat) (l : List Sig) : Nat :=
  l.foldl (fun x sig => 2 * x + sigBit sig) a

/-- Value of a symbol sequence read most-significant-first. -/
def sigsVal (l : List Sig) : Nat := valFrom 0 l

/-- Channel coalescing: the symbol at position `p` is lost because the next
notification of the same kind arrived before it was consumed; the receiver
sees the emitted sequence with that one element removed. -/
def coalesceAt (l : List Sig) (p : Nat) : List Sig := l.take p ++ l.drop (p + 1)

/-- Model of `sigemptyset(&sa.sa_mask)`: the empty signal set. -/
def sigemptyset : List Sig := []

/-- Model of `sigaddset`: add one signal to a signal set. -/
def sigaddset (m : List Sig) (sig : Sig) : List Sig := m ++ [sig]

/-- The `struct sigaction` configured by the receiver's `main`: handler
function and the mask of signals blocked while the handler runs. -/
structure SigactionCfg where
  sa_handler : RState → Sig → RState × Option (String × Nat)
  sa_mask : List Sig

/-- The receiver's `sa`: handler `handle_sigusr`, mask built by
`sigemptyset` then `sigaddset(SIGUSR1)` then `sigaddset(SIGUSR2)`. -/
def sa : SigactionCfg :=
  { sa_handler := handle_sigusr
    sa_mask := sigaddset (sigaddset sigemptyset Sig.SIGUSR1) Sig.SIGUSR2 }

/-- The two `sigaction` calls: both notification kinds are bound to `sa`. -/
def installedAction : Sig → Option SigactionCfg
  | Sig.SIGUSR1 => some sa
  | Sig.SIGUSR2 => some sa

/-- Micro-operations of the handler body, used to model arrivals that
interrupt the handler mid-update: the left shift of `result`, the
conditional OR of the low bit, and the `bit_count` increment. -/
inductive MicroOp where
  | shiftOp : MicroOp
  | orOp : MicroOp
  | incOp : MicroOp
deriving DecidableEq

/-- Effect of one micro-operation of the handler handling `sig`. -/
def microStep (sig : Sig) (s : RState) : MicroOp → RState
  | MicroOp.shiftOp => ⟨s.bit_count, s.result <<< 1⟩
  | MicroOp.orOp => if sig = Sig.SIGUSR2 then ⟨s.bit_count, s.result ||| 1⟩ else s
  | MicroOp.incOp => ⟨s.bit_count + 1, s.result⟩

/-- The handler body as its ordered micro-operations. -/
def handlerBody : List MicroOp := [MicroOp.shiftOp, MicroOp.orOp, MicroOp.incOp]

/-- Run a list of micro-operations of the handler handling `sig`. -/
def applyOps (sig : Sig) (s : RState) (ops : List MicroOp) : RState :=
  ops.foldl (microStep sig) s

/-- State transformation of one complete handler invocation. -/
def stateStep (s : RState) (sig : Sig) : RState := (handle_sigusr s sig).1

/-- POSIX delivery semantics for a signal `s2` arriving after `j` of the
micro-operations of the handler currently handling `s1`: if `s2` is in the
installed mask it is held pending and its handler runs only after the
current handler finishes; otherwise its handler preempts immediately,
interleaving with the in-progress update. -/
def deliverDuring (mask : List Sig) (s : RState) (s1 s2 : Sig) (j : Nat) : RState :=
  if s2 ∈ mask then
    stateStep (applyOps s1 (applyOps s1 s (handlerBody.take j)) (handlerBody.drop j)) s2
  else
    applyOps s1 (stateStep (applyOps s1 s (handlerBody.take j)) s2) (handlerBody.drop j)

/-- Whitespace as recognized by formatted `cin` extraction. -/
def isWsChar (c : Char) : Bool := c = ' ' || c = '\n' || c = '\t' || c = '\r'

/-- Skip leading whitespace, as `cin >>` does before parsing. -/
def skipWs : List Char → List Char
  | [] => []
  | c :: cs => if isWsChar c then skipWs cs else c :: cs

/-- Longest digit run at the front of the stream, and the rest. -/
def digitsSpan : List Char → List Char × List Char
  | [] => ([], [])
  | c :: cs =>
    if c.isDigit then
      let r := digitsSpan cs
      (c :: r.1, r.2)
    else ([], c :: cs)

/-- Decimal value of a digit run. -/
def digitsToNat (ds : List Char) : Nat :=
  ds.foldl (fun a c => 10 * a + (c.toNat - 48)) 0

/-- Model of `cin >> n` for an integer variable: skip whitespace, consume an
optional sign and a digit run; with no digits the extraction fails
(failbit), the offending characters staying in the stream.  Returns the
parsed value (or `none` on failure) and the remaining stream. -/
def extractInt (s : List Char) : Option Int × List Char :=
  match skipWs s with
  | '-' :: rest =>
    match digitsSpan rest with
    | ([], r) => (none, r)
    | (ds, r) => (some (-(digitsToNat ds : Int)), r)
  | '+' :: rest =>
    match digitsSpan rest with
    | ([], r) => (none, r)
    | (ds, r) => (some ((digitsToNat ds : Int)), r)
  | s1 =>
    match digitsSpan s1 with
    | ([], r) => (none, r)
    | (ds, r) => (some ((digitsToNat ds : Int)), r)

/-- Model of `cin.ignore(max, newline)`: drop characters up to and
including the first newline (all of them at end of input). -/
def ignoreLine : List Char → List Char
  | [] => []
  | c :: cs => if c = '\n' then cs else ignoreLine cs

/-- Model of `cin.peek()`: next character, or `none` at end of input. -/
def speek : List Char → Option Char
  | [] => none
  | c :: _ => some c

/-- The sender's PID validation loop (`while (1)` at lines 73-91), with
fuel bounding the number of iterations observed: each iteration prompts,
extracts an integer, and re-prompts (after `clear`/`ignore`) unless the
parse succeeded, the PID is positive, and `kill(pid, 0)` succeeds (the
`alive` oracle).  Returns the accepted PID with the remaining stream (or
`none` if fuel ran out first) and the number of prompts printed. -/
def pidLoop (alive : Int → Bool) : Nat → List Char → Option (Int × List Char) × Nat
  | 0, _ => (none, 0)
  | fuel + 1, s =>
    match extractInt s with
    | (none, r) =>
      let t := pidLoop alive fuel (ignoreLine r)
      (t.1, t.2 + 1)
    | (some pid, r) =>
      if pid ≤ 0 ∨ alive pid = false then
        let t := pidLoop alive fuel (ignoreLine r)
        (t.1, t.2 + 1)
      else
        (some (pid, r), 1)

/-- The sender's message validation loop (`while (1)` at lines 95-129):
each iteration prompts and extracts an integer; a failed parse
re-prompts after `clear`/`ignore`; a successful parse with the next
character not a newline (`cin.peek() != '\n'`, including end of input)
re-prompts after `clear`/`ignore`; a value outside [0,255] re-prompts
without touching the stream.  Fuel and result as in `pidLoop`. -/
def valueLoop : Nat → List Char → Option (Int × List Char) × Nat
  | 0, _ => (none, 0)
  | fuel + 1, s =>
    match extractInt s with
    | (none, r) =>
      let t := valueLoop fuel (ignoreLine r)
      (t.1, t.2 + 1)
    | (some number, r) =>
      if speek r ≠ some '\n' then
        let t := valueLoop fuel (ignoreLine r)
        (t.1, t.2 + 1)
      else if number < 0 ∨ 255 < number then
        let t := valueLoop fuel r
        (t.1, t.2 + 1)
      else
        (some (number, r), 1)

/-- The sender's `main`: signals are emitted only after the PID loop and
then the value loop have both accepted; if either validation loop never
accepts, nothing is ever sent. -/
def senderMain (alive : Int → Bool) (ok : Nat → Bool) (fuel : Nat) (s : List Char) : List Sig :=
  match (pidLoop alive fuel s).1 with
  | none => []
  | some (_, r1) =>
    match (valueLoop fuel r1).1 with
    | none => []
    | some (v, _) => (senderRun ok v.toNat).1

theorem shiftLeft_one (r : Nat) : r <<< 1 = 2 * r := by
  rw [Nat.shiftLeft_eq, pow_one, Nat.mul_comm]

theorem two_mul_lor_one (r : Nat) : 2 * r ||| 1 = 2 * r + 1 := by
  simpa [Nat.bit] using Nat.lor_bit false r true 0

/-- Arithmetic characterization of one handler invocation: the new state is
`(bit_count + 1, 2 * result + sigBit sig)`, and the terminal report fires
exactly when the new count is 8. -/
theorem handle_sigusr_eq (s : RState) (sig : Sig) :
    handle_sigusr s sig =
      (⟨s.bit_count + 1, 2 * s.result + sigBit sig⟩,
        if s.bit_count + 1 = 8 then
          some ("Received " ++ toString (2 * s.result + sigBit sig), 0)
        else none) := by
  cases sig <;>
    simp [handle_sigusr, sigBit, shiftLeft_one, two_mul_lor_one]

/-- One delivery that does not reach 8 bits: the handler returns and the
run continues on the remaining signals from the updated state. -/
theorem runReceiver_cons (s : RState) (sig : Sig) (rest : List Sig)
    (hne : s.bit_count + 1 ≠ 8) :
    runReceiver s (sig :: rest) =
      runReceiver ⟨s.bit_count + 1, 2 * s.result + sigBit sig⟩ rest := by
  rw [runReceiver, handle_sigusr_eq, if_neg hne]

/-- One delivery that reaches 8 bits: the handler prints and exits, and the
signals after it are not processed. -/
theorem runReceiver_last (s : RState) (sig : Sig) (extra : List Sig)
    (h8 : s.bit_count + 1 = 8) :
    runReceiver s (sig :: extra) =
      (⟨8, 2 * s.result + sigBit sig⟩,
        some ("Received " ++ toString (2 * s.result + sigBit sig), 0)) := by
  rw [runReceiver, handle_sigusr_eq, if_pos h8, h8]

/-- While fewer than 8 bits have arrived in total, every delivery takes the
continue branch: the run ends with the count advanced by the number of
symbols and the accumulator folded over them, with no output. -/
theorem runReceiver_cont (l : List Sig) :
    ∀ s : RState, s.bit_count + l.length < 8 →
      runReceiver s l = (⟨s.bit_count + l.length, valFrom s.result l⟩, none) := by
  induction l with
  | nil => intro s _; simp [runReceiver, valFrom]
  | cons sig rest ih =>
    intro s h
    have hne : s.bit_count + 1 ≠ 8 := by
      simp only [List.length_cons] at h; omega
    have h2 : s.bit_count + 1 + rest.length < 8 := by
      simp only [List.length_cons] at h; omega
    rw [runReceiver_cons s sig rest hne,
      ih ⟨s.bit_count + 1, 2 * s.result + sigBit sig⟩ h2]
    simp only [List.length_cons, valFrom, List.foldl_cons, Prod.mk.injEq,
      RState.mk.injEq, and_true]
    omega

/-- When a batch of symbols brings the count exactly to 8, the run reports
`Received` with the folded accumulator and exit status 0, and any signals
delivered afterwards are not processed. -/
theorem runReceiver_done (l : List Sig) :
    ∀ (s : RState) (extra : List Sig), l ≠ [] → s.bit_count + l.length = 8 →
      runReceiver s (l ++ extra) =
        (⟨8, valFrom s.result l⟩,
          some ("Received " ++ toString (valFrom s.result l), 0)) := by
  induction l with
  | nil => intro s extra hne _; exact absurd rfl hne
  | cons sig rest ih =>
    intro s extra _ h
    cases rest with
    | nil =>
      have h8 : s.bit_count + 1 = 8 := by simpa using h
      rw [List.cons_append, List.nil_append, runReceiver_last s sig extra h8]
      simp [valFrom]
    | cons c t =>
      have hne : s.bit_count + 1 ≠ 8 := by
        simp only [List.length_cons] at h; omega
      have h2 : s.bit_count + 1 + (c :: t).length = 8 := by
        simp only [List.length_cons] at h ⊢; omega
      rw [List.cons_append, runReceiver_cons s sig _ hne,
        ih ⟨s.bit_count + 1, 2 * s.result + sigBit sig⟩ extra (by simp) h2]
      simp [valFrom]

theorem sigBit_le_one (sig : Sig) : sigBit sig ≤ 1 := by
  cases sig <;> simp [sigBit]

/-- Folding from `a` is folding from 0 shifted under `a`. -/
theorem valFrom_eq (l : List Sig) :
    ∀ a : Nat, valFrom a l = a * 2 ^ l.length + sigsVal l := by
  induction l with
  | nil => intro a; simp [valFrom, sigsVal]
  | cons sig rest ih =>
    intro a
    have h1 : valFrom a (sig :: rest) = valFrom (2 * a + sigBit sig) rest := rfl
    have h2 : sigsVal (sig :: rest) = valFrom (sigBit sig) rest := by
      simp [sigsVal, valFrom]
    rw [h1, h2, ih (2 * a + sigBit sig), ih (sigBit sig)]
    simp only [List.length_cons, pow_succ]
    ring

/-- Peeling the first (most significant) symbol off the accumulated value. -/
theorem sigsVal_cons (sig : Sig) (l : List Sig) :
    sigsVal (sig :: l) = sigBit sig * 2 ^ l.length + sigsVal l := by
  have h : sigsVal (sig :: l) = valFrom (sigBit sig) l := by
    simp [sigsVal, valFrom]
  rw [h, valFrom_eq]

/-- Appending one (least significant) symbol shifts and ORs it in. -/
theorem valFrom_append (a : Nat) (l : List Sig) (sig : Sig) :
    valFrom a (l ++ [sig]) = 2 * valFrom a l + sigBit sig := by
  simp [valFrom, List.foldl_append]

/-- The accumulated value of `k` symbols fits in `k` bits. -/
theorem sigsVal_lt (l : List Sig) : sigsVal l < 2 ^ l.length := by
  induction l with
  | nil => simp [sigsVal, valFrom]
  | cons sig rest ih =>
    rw [sigsVal_cons]
    have hb := sigBit_le_one sig
    have hp : (2 : Nat) ^ (sig :: rest).length = 2 ^ rest.length * 2 := by
      simp [pow_succ]
    rw [hp]
    cases sig <;> simp [sigBit] at hb ⊢ <;> omega

/-- Bit `k - 1 - i` of the accumulated value of `k` symbols is symbol `i`:
the low `k` bits are the received symbols, most significant first. -/
theorem sigsVal_bit (l : List Sig) :
    ∀ i : Nat, i < l.length →
      (sigsVal l >>> (l.length - 1 - i)) &&& 1 = sigBit (l.getD i Sig.SIGUSR1) := by
  induction l with
  | nil => intro i hi; simp at hi
  | cons sig rest ih =>
    intro i hi
    rw [Nat.shiftRight_eq_div_pow, Nat.and_one_is_mod, sigsVal_cons]
    cases i with
    | zero =>
      have hlen : (sig :: rest).length - 1 - 0 = rest.length := by simp
      rw [hlen, Nat.add_comm,
        Nat.add_mul_div_right _ _ (Nat.pos_pow_of_pos rest.length (by omega)),
        Nat.div_eq_of_lt (sigsVal_lt rest)]
      have hb := sigBit_le_one sig
      simp only [List.getD_cons_zero]
      omega
    | succ i =>
      have hilen : i < rest.length := by
        simp only [List.length_cons] at hi; omega
      have hm : (sig :: rest).length - 1 - (i + 1) = rest.length - 1 - i := by
        simp only [List.length_cons]; omega
      have hsplit : rest.length = (rest.length - 1 - i) + (i + 1) := by omega
      have hpow : (2 : Nat) ^ rest.length
          = 2 ^ (rest.length - 1 - i) * 2 ^ (i + 1) := by
        rw [← pow_add]
        exact congrArg (2 ^ ·) hsplit
      rw [hm, Nat.add_comm, hpow]
      rw [show sigBit sig * (2 ^ (rest.length - 1 - i) * 2 ^ (i + 1))
          = (sigBit sig * 2 ^ (i + 1)) * 2 ^ (rest.length - 1 - i) by ring]
      rw [Nat.add_mul_div_right _ _ (Nat.pos_pow_of_pos _ (by omega))]
      have heven : sigBit sig * 2 ^ (i + 1) = 2 * (sigBit sig * 2 ^ i) := by
        rw [pow_succ]; ring
      have hrec := ih i hilen
      rw [Nat.shiftRight_eq_div_pow, Nat.and_one_is_mod] at hrec
      simp only [List.getD_cons_succ]
      omega

/-- Symbols beyond the received count contribute nothing: all bits of the
accumulated value above position `k - 1` are zero. -/
theorem sigsVal_highBits (l : List Sig) (j : Nat) (hj : l.length ≤ j) :
    (sigsVal l >>> j) &&& 1 = 0 := by
  rw [Nat.shiftRight_eq_div_pow, Nat.and_one_is_mod]
  have hlt : sigsVal l < 2 ^ j :=
    lt_of_lt_of_le (sigsVal_lt l) (Nat.pow_le_pow_right (by omega) hj)
  rw [Nat.div_eq_of_lt hlt]

/-- If every `kill` up to the failing index succeeds and the `kill` at index
`j` fails, the loop delivers exactly the signals before `j`, prints the
diagnostic once, and exits with status 1. -/
theorem sendIndexed_fail (ok : Nat → Bool) (v : Nat) :
    ∀ (l1 : List Nat) (j : Nat) (l2 : List Nat),
      (∀ i ∈ l1, ok i = true) → ok j = false →
      sendIndexed ok v (l1 ++ j :: l2) =
        (l1.map (fun k => send_bit_sig ((v >>> (7 - k)) &&& 1)),
          ["Failed to send signal"], 1) := by
  intro l1
  induction l1 with
  | nil => intro j l2 _ hj; simp [sendIndexed, hj]
  | cons k rest ih =>
    intro j l2 hmem hj
    have hk : ok k = true := hmem k (by simp)
    have hrest : ∀ i ∈ rest, ok i = true := fun i hi => hmem i (by simp [hi])
    simp only [List.cons_append, sendIndexed, hk, if_true, List.append_eq]
    rw [ih j l2 hrest hj]
    simp

/-- A prefix of the emitted signal sequence, by emission index. -/
theorem senderSignals_take (v j : Nat) :
    (senderSignals v).take j =
      ((List.range 8).take j).map (fun k => send_bit_sig ((v >>> (7 - k)) &&& 1)) := by
  simp [senderSignals, senderBits, ← List.map_take, List.map_map, Function.comp]

/-- Splitting the emission indices around a failing index `j < 8`. -/
theorem range8_split (j : Nat) (hj : j < 8) :
    List.range 8 = (List.range 8).take j ++ j :: (List.range 8).drop (j + 1) := by
  have h1 : (List.range 8).drop j = j :: (List.range 8).drop (j + 1) := by
    rw [List.drop_eq_getElem_cons (by simpa using hj)]
    simp
  conv_lhs => rw [← List.take_append_drop j (List.range 8)]
  rw [h1]

theorem extractInt_nil : extractInt [] = (none, []) := rfl

/-- PID loop, iteration with a failed parse: clear, ignore, re-prompt. -/
theorem pidLoop_succ_fail (alive : Int → Bool) (f : Nat) (s r0 : List Char)
    (hx : extractInt s = (none, r0)) :
    pidLoop alive (f + 1) s =
      ((pidLoop alive f (ignoreLine r0)).1, (pidLoop alive f (ignoreLine r0)).2 + 1) := by
  rw [pidLoop, hx]

/-- PID loop, iteration with a parsed but rejected PID (non-positive or not
alive): clear, ignore, re-prompt. -/
theorem pidLoop_succ_bad (alive : Int → Bool) (f : Nat) (s r0 : List Char) (pid : Int)
    (hx : extractInt s = (some pid, r0)) (hc : pid ≤ 0 ∨ alive pid = false) :
    pidLoop alive (f + 1) s =
      ((pidLoop alive f (ignoreLine r0)).1, (pidLoop alive f (ignoreLine r0)).2 + 1) := by
  rw [pidLoop, hx]
  show (if pid ≤ 0 ∨ alive pid = false then
      ((pidLoop alive f (ignoreLine r0)).1, (pidLoop alive f (ignoreLine r0)).2 + 1)
    else (some (pid, r0), 1)) = _
  rw [if_pos hc]

/-- PID loop, iteration accepting a valid live PID. -/
theorem pidLoop_succ_good (alive : Int → Bool) (f : Nat) (s r0 : List Char) (pid : Int)
    (hx : extractInt s = (some pid, r0)) (hc : ¬(pid ≤ 0 ∨ alive pid = false)) :
    pidLoop alive (f + 1) s = (some (pid, r0), 1) := by
  rw [pidLoop, hx]
  show (if pid ≤ 0 ∨ alive pid = false then
      ((pidLoop alive f (ignoreLine r0)).1, (pidLoop alive f (ignoreLine r0)).2 + 1)
    else (some (pid, r0), 1)) = _
  rw [if_neg hc]

/-- Value loop, iteration with a failed parse: clear, ignore, re-prompt. -/
theorem valueLoop_succ_fail (f : Nat) (s r0 : List Char)
    (hx : extractInt s = (none, r0)) :
    valueLoop (f + 1) s =
      ((valueLoop f (ignoreLine r0)).1, (valueLoop f (ignoreLine r0)).2 + 1) := by
  rw [valueLoop, hx]

/-- Value loop, iteration rejected by the trailing-character peek check. -/
theorem valueLoop_succ_tail (f : Nat) (s r0 : List Char) (number : Int)
    (hx : extractInt s = (some number, r0)) (hp : speek r0 ≠ some '\n') :
    valueLoop (f + 1) s =
      ((valueLoop f (ignoreLine r0)).1, (valueLoop f (ignoreLine r0)).2 + 1) := by
  rw [valueLoop, hx]
  show (if speek r0 ≠ some '\n' then
      ((valueLoop f (ignoreLine r0)).1, (valueLoop f (ignoreLine r0)).2 + 1)
    else if number < 0 ∨ 255 < number then
      ((valueLoop f r0).1, (valueLoop f r0).2 + 1)
    else (some (number, r0), 1)) = _
  rw [if_pos hp]

/-- Value loop, iteration rejected by the range check (stream untouched). -/
theorem valueLoop_succ_range (f : Nat) (s r0 : List Char) (number : Int)
    (hx : extractInt s = (some number, r0)) (hp : ¬speek r0 ≠ some '\n')
    (hr : number < 0 ∨ 255 < number) :
    valueLoop (f + 1) s = ((valueLoop f r0).1, (valueLoop f r0).2 + 1) := by
  rw [valueLoop, hx]
  show (if speek r0 ≠ some '\n' then
      ((valueLoop f (ignoreLine r0)).1, (valueLoop f (ignoreLine r0)).2 + 1)
    else if number < 0 ∨ 255 < number then
      ((valueLoop f r0).1, (valueLoop f r0).2 + 1)
    else (some (number, r0), 1)) = _
  rw [if_neg hp, if_pos hr]

/-- Value loop, iteration accepting an in-range value followed by newline. -/
theorem valueLoop_succ_good (f : Nat) (s r0 : List Char) (number : Int)
    (hx : extractInt s = (some number, r0)) (hp : ¬speek r0 ≠ some '\n')
    (hr : ¬(number < 0 ∨ 255 < number)) :
    valueLoop (f + 1) s = (some (number, r0), 1) := by
  rw [valueLoop, hx]
  show (if speek r0 ≠ some '\n' then
      ((valueLoop f (ignoreLine r0)).1, (valueLoop f (ignoreLine r0)).2 + 1)
    else if number < 0 ∨ 255 < number then
      ((valueLoop f r0).1, (valueLoop f r0).2 + 1)
    else (some (number, r0), 1)) = _
  rw [if_neg hp, if_neg hr]

/-- Any PID the PID loop accepts is positive and passed the liveness probe. -/
theorem pidLoop_sound (alive : Int → Bool) :
    ∀ (fuel : Nat) (s : List Char) (p : Int) (r : List Char),
      (pidLoop alive fuel s).1 = some (p, r) → 0 < p ∧ alive p = true := by
  intro fuel
  induction fuel with
  | zero => intro s p r h; simp [pidLoop] at h
  | succ f ih =>
    intro s p r h
    rcases hx : extractInt s with ⟨op, r0⟩
    cases op with
    | none =>
      rw [pidLoop_succ_fail alive f s r0 hx] at h
      exact ih _ _ _ h
    | some pid =>
      by_cases hc : pid ≤ 0 ∨ alive pid = false
      · rw [pidLoop_succ_bad alive f s r0 pid hx hc] at h
        exact ih _ _ _ h
      · rw [pidLoop_succ_good alive f s r0 pid hx hc] at h
        simp only [Option.some.injEq, Prod.mk.injEq] at h
        push_neg at hc
        rcases h with ⟨hp, _⟩
        subst hp
        exact ⟨by omega, by simpa using hc.2⟩

/-- Any value the value loop accepts lies in [0, 255]. -/
theorem valueLoop_sound :
    ∀ (fuel : Nat) (s : List Char) (v : Int) (r : List Char),
      (valueLoop fuel s).1 = some (v, r) → 0 ≤ v ∧ v ≤ 255 := by
  intro fuel
  induction fuel with
  | zero => intro s v r h; simp [valueLoop] at h
  | succ f ih =>
    intro s v r h
    rcases hx : extractInt s with ⟨op, r0⟩
    cases op with
    | none =>
      rw [valueLoop_succ_fail f s r0 hx] at h
      exact ih _ _ _ h
    | some number =>
      by_cases hp : speek r0 ≠ some '\n'
      · rw [valueLoop_succ_tail f s r0 number hx hp] at h
        exact ih _ _ _ h
      · by_cases hr : number < 0 ∨ 255 < number
        · rw [valueLoop_succ_range f s r0 number hx hp hr] at h
          exact ih _ _ _ h
        · rw [valueLoop_succ_good f s r0 number hx hp hr] at h
          simp only [Option.some.injEq, Prod.mk.injEq] at h
          push_neg at hr
          rcases h with ⟨hv, _⟩
          subst hv
          exact ⟨by omega, by omega⟩

/-- With an exhausted stream every iteration fails to parse, ignores
nothing, and re-prompts: the loop consumes all fuel and never accepts. -/
theorem pidLoop_nil (alive : Int → Bool) :
    ∀ fuel : Nat, pidLoop alive fuel [] = (none, fuel) := by
  intro fuel
  induction fuel with
  | zero => rw [pidLoop]
  | succ f ih =>
    rw [pidLoop_succ_fail alive f [] [] extractInt_nil]
    simp only [show ignoreLine [] = [] from rfl, ih]

/-- Value-loop analogue of `pidLoop_nil`. -/
theorem valueLoop_nil :
    ∀ fuel : Nat, valueLoop fuel [] = (none, fuel) := by
  intro fuel
  induction fuel with
  | zero => rw [valueLoop]
  | succ f ih =>
    rw [valueLoop_succ_fail f [] [] extractInt_nil]
    simp only [show ignoreLine [] = [] from rfl, ih]

/-- Claim C1: round-trip correctness.  For every value v in [0,255], if the
sender's 8 notifications for v are delivered to the receiver in order with
no coalescing, the receiver's final state holds v, it prints `Received v`,
and it exits with status 0; in particular v = 0 yields `Received 0` and
v = 255 yields `Received 255`. -/
theorem c1_round_trip (v : Nat) (hv : v < 256) :
    runReceiver initState (senderSignals v) =
      (⟨8, v⟩, some ("Received " ++ toString v, 0)) := by
  have hlen : (senderSignals v).length = 8 := by
    simp [senderSignals, senderBits]
  have hne : senderSignals v ≠ [] := by
    intro h0; rw [h0] at hlen; simp at hlen
  have h := runReceiver_done (senderSignals v) initState [] hne (by rw [hlen]; rfl)
  rw [List.append_nil] at h
  have hval : valFrom initState.result (senderSignals v) = v := by
    have hd : ∀ w : Nat, w < 256 → sigsVal (senderSignals w) = w := by decide
    simpa [sigsVal, initState] using hd v hv
  rw [hval] at h
  exact h

/-- Witness for C1 at the boundary values 0 and 255. -/
theorem c1_round_trip_witness :
    runReceiver initState (senderSignals 0) =
      (⟨8, 0⟩, some ("Received " ++ toString 0, 0)) ∧
    runReceiver initState (senderSignals 255) =
      (⟨8, 255⟩, some ("Received " ++ toString 255, 0)) :=
  ⟨c1_round_trip 0 (by decide), c1_round_trip 255 (by decide)⟩

/-- Claim C2: MSB-first emission order.  For every value in [0,255] the
sender emits exactly 8 notifications, the i-th (0-based) carrying bit
`7 - i`, with bit 0 mapped to SIGUSR1 and bit 1 to SIGUSR2; sending
0b10110010 emits SIGUSR2, SIGUSR1, SIGUSR2, SIGUSR2, SIGUSR1, SIGUSR1,
SIGUSR2, SIGUSR1 in that exact order. -/
theorem c2_msb_first (v : Nat) (hv : v < 256) :
    (senderSignals v).length = 8 ∧
    (∀ i, i < 8 → (senderSignals v).getD i Sig.SIGUSR1 =
      (if (v >>> (7 - i)) &&& 1 = 0 then Sig.SIGUSR1 else Sig.SIGUSR2)) ∧
    senderSignals 178 =
      [Sig.SIGUSR2, Sig.SIGUSR1, Sig.SIGUSR2, Sig.SIGUSR2,
       Sig.SIGUSR1, Sig.SIGUSR1, Sig.SIGUSR2, Sig.SIGUSR1] := by
  have key : ∀ w : Nat, w < 256 → ∀ i : Nat, i < 8 →
      (senderSignals w).getD i Sig.SIGUSR1 =
        (if (w >>> (7 - i)) &&& 1 = 0 then Sig.SIGUSR1 else Sig.SIGUSR2) := by
    decide
  exact ⟨by simp [senderSignals, senderBits], key v hv, by decide⟩

/-- Witness for C2 at v = 178 = 0b10110010. -/
theorem c2_msb_first_witness :
    senderSignals 178 =
      [Sig.SIGUSR2, Sig.SIGUSR1, Sig.SIGUSR2, Sig.SIGUSR2,
       Sig.SIGUSR1, Sig.SIGUSR1, Sig.SIGUSR2, Sig.SIGUSR1] :=
  (c2_msb_first 178 (by decide)).2.2

/-- Claim C3: accumulator prefix invariant.  After any k < 8 symbols the
receiver's state has `bit_count = k`, `result` below `2 ^ k` with its low
k bits equal to the symbols received so far most-significant-first and
all higher bits zero, no output has been produced, and one further
handler invocation preserves the invariant (appending the new symbol). -/
theorem c3_accumulator_invariant (syms : List Sig) (hk : syms.length < 8) :
    runReceiver initState syms = (⟨syms.length, sigsVal syms⟩, none) ∧
    sigsVal syms < 2 ^ syms.length ∧
    (∀ i, i < syms.length →
      (sigsVal syms >>> (syms.length - 1 - i)) &&& 1 =
        sigBit (syms.getD i Sig.SIGUSR1)) ∧
    (∀ j, syms.length ≤ j → (sigsVal syms >>> j) &&& 1 = 0) ∧
    (∀ sig : Sig, (handle_sigusr ⟨syms.length, sigsVal syms⟩ sig).1 =
      ⟨(syms ++ [sig]).length, sigsVal (syms ++ [sig])⟩) := by
  refine ⟨?_, sigsVal_lt syms, sigsVal_bit syms,
    fun j hj => sigsVal_highBits syms j hj, ?_⟩
  · have h := runReceiver_cont syms initState (by simpa [initState] using hk)
    simpa [initState, sigsVal] using h
  · intro sig
    rw [handle_sigusr_eq]
    have h1 : sigsVal (syms ++ [sig]) = 2 * sigsVal syms + sigBit sig :=
      valFrom_append 0 syms sig
    simp [h1]

/-- Witness for C3 after the three symbols 1, 0, 1 (accumulator 5). -/
theorem c3_accumulator_invariant_witness :
    runReceiver initState [Sig.SIGUSR2, Sig.SIGUSR1, Sig.SIGUSR2] =
      (⟨3, 5⟩, none) :=
  (c3_accumulator_invariant [Sig.SIGUSR2, Sig.SIGUSR1, Sig.SIGUSR2] (by decide)).1

/-- Claim C4: terminal DONE behavior.  On the 8th symbol the handler prints
`Received <value>` with the decimal 8-bit accumulator and the process
exits with status 0; signals delivered after the 8th are not processed
(the run over `l ++ extra` equals the run over `l` alone). -/
theorem c4_terminal_done (l extra : List Sig) (hl : l.length = 8) :
    runReceiver initState (l ++ extra) =
      (⟨8, sigsVal l⟩, some ("Received " ++ toString (sigsVal l), 0)) ∧
    runReceiver initState (l ++ extra) = runReceiver initState l := by
  have hne : l ≠ [] := by intro h0; rw [h0] at hl; simp at hl
  have h1 := runReceiver_done l initState extra hne (by rw [hl]; rfl)
  have h2 := runReceiver_done l initState [] hne (by rw [hl]; rfl)
  rw [List.append_nil] at h2
  constructor
  · simpa [sigsVal, initState] using h1
  · rw [h1, h2]

/-- Witness for C4: eight 0-symbols then one extra symbol, which is ignored. -/
theorem c4_terminal_done_witness :
    runReceiver initState
        ([Sig.SIGUSR1, Sig.SIGUSR1, Sig.SIGUSR1, Sig.SIGUSR1,
          Sig.SIGUSR1, Sig.SIGUSR1, Sig.SIGUSR1, Sig.SIGUSR1] ++ [Sig.SIGUSR2]) =
      (⟨8, 0⟩, some ("Received " ++ toString 0, 0)) :=
  (c4_terminal_done
    [Sig.SIGUSR1, Sig.SIGUSR1, Sig.SIGUSR1, Sig.SIGUSR1,
     Sig.SIGUSR1, Sig.SIGUSR1, Sig.SIGUSR1, Sig.SIGUSR1]
    [Sig.SIGUSR2] (by decide)).1

/-- Splitting the handler body at any point and resuming equals running it
whole. -/
theorem applyOps_take_drop (sig : Sig) (s : RState) (j : Nat) :
    applyOps sig (applyOps sig s (handlerBody.take j)) (handlerBody.drop j) =
      applyOps sig s handlerBody := by
  rw [applyOps, applyOps, applyOps, ← List.foldl_append, List.take_append_drop]

/-- The micro-operation decomposition computes exactly one handler
invocation. -/
theorem applyOps_handlerBody (s : RState) (sig : Sig) :
    applyOps sig s handlerBody = stateStep s sig := by
  cases sig <;> rfl

/-- Both notification kinds are in the mask installed by the receiver. -/
theorem all_sigs_in_mask (sig : Sig) : sig ∈ sa.sa_mask := by
  cases sig <;> decide

/-- Claim C5: handler non-reentrancy.  The receiver installs `handle_sigusr`
for both notification kinds with a mask containing both kinds, so a signal
of either kind arriving after any number of micro-operations of a running
handler is deferred, never interleaved with the in-progress
read-modify-write and never dropped: the final state is exactly the
sequential application of the two handler invocations. -/
theorem c5_handler_not_reentrant :
    (Sig.SIGUSR1 ∈ sa.sa_mask ∧ Sig.SIGUSR2 ∈ sa.sa_mask) ∧
    (installedAction Sig.SIGUSR1 = some sa ∧ installedAction Sig.SIGUSR2 = some sa) ∧
    (∀ (s : RState) (sig : Sig), applyOps sig s handlerBody = stateStep s sig) ∧
    (∀ (s : RState) (s1 s2 : Sig) (j : Nat),
      deliverDuring sa.sa_mask s s1 s2 j = stateStep (stateStep s s1) s2) := by
  refine ⟨⟨by decide, by decide⟩, ⟨rfl, rfl⟩,
    fun s sig => applyOps_handlerBody s sig, ?_⟩
  intro s s1 s2 j
  rw [deliverDuring, if_pos (all_sigs_in_mask s2), applyOps_take_drop,
    applyOps_handlerBody]

/-- Counterexample to claim C6 as stated: sending v = 3 emits two adjacent
SIGUSR2 symbols at positions 6 and 7; coalescing one of them leaves the
receiver, after the whole transmission, with no reported value at all
(output component `none`, `bit_count` stuck at 7) — it does not "produce a
wrong final reported value", it produces no reported value. -/
theorem c6_counterexample :
    (senderSignals 3).getD 6 Sig.SIGUSR1 = Sig.SIGUSR2 ∧
    (senderSignals 3).getD 7 Sig.SIGUSR1 = Sig.SIGUSR2 ∧
    runReceiver initState (coalesceAt (senderSignals 3) 6) = (⟨7, 1⟩, none) := by
  decide

/-- Claim C6 (amended): coalescing is silent.  If one symbol of an 8-symbol
transmission is lost to same-kind coalescing, the receiver detects
nothing and reports nothing — no error and no value: it is left waiting
with `bit_count = 7` and the misaligned accumulator, so the transmission
ends with no reported value. -/
theorem c6_coalescing_silent (v p : Nat) (hv : v < 256) (hp : p + 1 < 8)
    (hsame : (senderSignals v).getD p Sig.SIGUSR1 =
      (senderSignals v).getD (p + 1) Sig.SIGUSR1) :
    runReceiver initState (coalesceAt (senderSignals v) p) =
      (⟨7, sigsVal (coalesceAt (senderSignals v) p)⟩, none) := by
  have hlen8 : (senderSignals v).length = 8 := by simp [senderSignals, senderBits]
  have hlen : (coalesceAt (senderSignals v) p).length = 7 := by
    simp only [coalesceAt, List.length_append, List.length_take, List.length_drop,
      hlen8]
    omega
  have h := runReceiver_cont (coalesceAt (senderSignals v) p) initState
    (by simp [initState, hlen])
  rw [hlen] at h
  simpa [initState, sigsVal] using h

/-- Witness for the amended C6 at v = 3 with the symbol at position 6
coalesced into the identical one at position 7. -/
theorem c6_coalescing_silent_witness :
    runReceiver initState (coalesceAt (senderSignals 3) 6) =
      (⟨7, sigsVal (coalesceAt (senderSignals 3) 6)⟩, none) :=
  c6_coalescing_silent 3 6 (by decide) (by decide) (by decide)

/-- Claim C7: delivery failure aborts transmission.  If the `kill` for the
symbol at index `j < 8` fails (the earlier ones having succeeded), the
sender delivers only the first `j` symbols, prints the diagnostic, and
exits with status 1; nothing after the failure is sent or retried. -/
theorem c7_delivery_failure_aborts (ok : Nat → Bool) (v j : Nat) (hj : j < 8)
    (hfail : ok j = false) (hok : ∀ i, i < j → ok i = true) :
    senderRun ok v = ((senderSignals v).take j, ["Failed to send signal"], 1) := by
  have hmem : ∀ i ∈ (List.range 8).take j, ok i = true := by
    intro i hi
    apply hok
    rw [List.take_range] at hi
    have := List.mem_range.mp hi
    omega
  rw [senderRun, range8_split j hj, sendIndexed_fail ok v _ j _ hmem hfail,
    senderSignals_take]

/-- Witness for C7: the 4th `kill` (index 3) fails while sending 169. -/
theorem c7_delivery_failure_aborts_witness :
    senderRun (fun i => decide (i < 3)) 169 =
      ((senderSignals 169).take 3, ["Failed to send signal"], 1) :=
  c7_delivery_failure_aborts (fun i => decide (i < 3)) 169 3 (by decide) (by decide)
    (fun i hi => decide_eq_true hi)

/-- Claim C8: input validation re-prompts and never proceeds.  Any PID the
PID loop accepts is positive and live, any value the value loop accepts is
in [0,255]; a non-integer value ("abc"), an out-of-range value (300), and
trailing characters ("123abc") each cause one extra prompt before a later
valid value is accepted, as do a non-positive PID (-7) and a dead PID (99);
and if either validation loop never accepts, no signal is ever sent. -/
theorem c8_input_validation :
    (∀ (alive : Int → Bool) (fuel : Nat) (s : List Char) (p : Int) (r : List Char),
      (pidLoop alive fuel s).1 = some (p, r) → 0 < p ∧ alive p = true) ∧
    (∀ (fuel : Nat) (s : List Char) (v : Int) (r : List Char),
      (valueLoop fuel s).1 = some (v, r) → 0 ≤ v ∧ v ≤ 255) ∧
    valueLoop 9 ("abc\n42\n".toList) = (some (42, ['\n']), 2) ∧
    valueLoop 9 ("300\n42\n".toList) = (some (42, ['\n']), 2) ∧
    valueLoop 9 ("123abc\n42\n".toList) = (some (42, ['\n']), 2) ∧
    pidLoop (fun p => decide (p = 5)) 9 ("-7\n5\n".toList) = (some (5, ['\n']), 2) ∧
    pidLoop (fun p => decide (p = 5)) 9 ("99\n5\n".toList) = (some (5, ['\n']), 2) ∧
    (∀ (alive : Int → Bool) (ok : Nat → Bool) (fuel : Nat) (s : List Char),
      (pidLoop alive fuel s).1 = none → senderMain alive ok fuel s = []) ∧
    (∀ (alive : Int → Bool) (ok : Nat → Bool) (fuel : Nat) (s : List Char)
      (p : Int) (r : List Char),
      (pidLoop alive fuel s).1 = some (p, r) → (valueLoop fuel r).1 = none →
      senderMain alive ok fuel s = []) := by
  refine ⟨fun alive fuel s p r h => pidLoop_sound alive fuel s p r h,
    fun fuel s v r h => valueLoop_sound fuel s v r h,
    by decide, by decide, by decide, by decide, by decide, ?_, ?_⟩
  · intro alive ok fuel s h
    rw [senderMain, h]
  · intro alive ok fuel s p r h1 h2
    rw [senderMain, h1]
    show (match (valueLoop fuel r).1 with
      | none => ([] : List Sig)
      | some (v, _) => (senderRun ok v.toNat).1) = []
    rw [h2]

/-- Witness for C8: the PID accepted from "-7 then 5" is positive and live. -/
theorem c8_input_validation_witness :
    (0 : Int) < 5 ∧ decide ((5 : Int) = 5) = true :=
  c8_input_validation.1 (fun p => decide (p = 5)) 9 ("-7\n5\n".toList) 5 ['\n']
    (by decide)

/-- Claim C9: PID input is not checked for trailing characters.  With
process 123 alive, the input line "123abc" is accepted by the PID prompt
on its first prompt as PID 123, leaving "abc" and the rest in the stream;
the first value prompt then fails on the leftover "abc" and re-prompts
(two prompts) before accepting 42. -/
theorem c9_pid_trailing_chars :
    pidLoop (fun p => decide (p = 123)) 5 ("123abc\n42\n".toList) =
      (some (123, "abc\n42\n".toList), 1) ∧
    valueLoop 5 ("abc\n42\n".toList) = (some (42, ['\n']), 2) := by
  exact ⟨by decide, by decide⟩

/-- Claim C10: the validation loops do not terminate on exhausted input.
On an empty stream every iteration of either loop fails the parse, clears,
ignores nothing, and re-prompts: for every fuel bound the loop is still
running (one prompt per iteration, no acceptance).  Streams that end in
invalid data ("abc", or "42" with no trailing newline) reach the empty
stream after one iteration and then loop the same way. -/
theorem c10_eof_never_terminates :
    (∀ (alive : Int → Bool) (fuel : Nat), pidLoop alive fuel [] = (none, fuel)) ∧
    (∀ fuel : Nat, valueLoop fuel [] = (none, fuel)) ∧
    (∀ (alive : Int → Bool) (fuel : Nat),
      pidLoop alive (fuel + 1) ("abc".toList) = (none, fuel + 1)) ∧
    (∀ fuel : Nat, valueLoop (fuel + 1) ("42".toList) = (none, fuel + 1)) := by
  refine ⟨fun alive fuel => pidLoop_nil alive fuel, valueLoop_nil, ?_, ?_⟩
  · intro alive fuel
    have hx : extractInt ("abc".toList) = (none, "abc".toList) := by decide
    have hig : ignoreLine ("abc".toList) = [] := by decide
    rw [pidLoop_succ_fail alive fuel _ _ hx, hig, pidLoop_nil alive fuel]
  · intro fuel
    have hx : extractInt ("42".toList) = (some 42, []) := by decide
    have hp : speek ([] : List Char) ≠ some '\n' := by decide
    rw [valueLoop_succ_tail fuel _ _ 42 hx hp,
      show ignoreLine [] = [] from rfl, valueLoop_nil fuel]

end SignalQ6
